import Mathlib

/-!
Verification of the LightField `TransformUtils.py` module against its
specification.

The module is a thin layer of coordinate-frame utilities over a scene-graph
transform object (vtkTransform) and a rotation-math library
(`thirdparty/transformations`).  We embed the Python functions as Lean
definitions over exact real arithmetic:

* a numpy array of unknown shape is an `NDArray` (dimensions plus a total
  entry function);
* a known 4x4 matrix is `Mat4 = Matrix (Fin 4) (Fin 4) Real`;
* a `vtkTransform` is its current 4x4 matrix together with its
  pre/post-multiply composition flag; mutation is modelled by explicit state
  passing (each mutating call returns the new state of the object);
* the shape assertion in `getTransformFromNumpy` is modelled with `Except`.

The VTK scene-graph library and the vendored `thirdparty/transformations`
rotation library are collaborators whose sources are not part of `src/`;
their operations are modelled from the specification (each such definition
carries a doc comment starting with `Modelled from the spec:`).
-/

noncomputable section

abbrev Mat4 : Type := Matrix (Fin 4) (Fin 4) ℝ

/-- Modelled from the spec: the scene-graph transform object (vtkTransform),
"an opaque mutable rigid/affine transform object supporting matrix
assignment, pre/post-multiply composition, and application to
vectors/normals".  The state is the current 4x4 matrix and the composition
mode flag (`postMul = true` for post-multiply). -/
structure vtkTransform where
  mat : Mat4
  postMul : Bool

/-- Modelled from the spec: a freshly constructed vtkTransform holds the
identity matrix and is in pre-multiply mode (the VTK default). -/
def vtkTransform.new : vtkTransform := ⟨1, false⟩

/-- Modelled from the spec: switch the transform to post-multiply mode. -/
def vtkTransform.PostMultiply (t : vtkTransform) : vtkTransform :=
  { t with postMul := true }

/-- Modelled from the spec: switch the transform to pre-multiply mode. -/
def vtkTransform.PreMultiply (t : vtkTransform) : vtkTransform :=
  { t with postMul := false }

/-- Modelled from the spec: concatenate a 4x4 matrix onto the transform.
In post-multiply mode the new operation is applied after the current matrix
(M becomes C * M); in pre-multiply mode it is applied before (M * C). -/
def vtkTransform.Concatenate (t : vtkTransform) (c : Mat4) : vtkTransform :=
  if t.postMul then { t with mat := c * t.mat } else { t with mat := t.mat * c }

/-- Modelled from the spec: overwrite the current matrix of the transform. -/
def vtkTransform.SetMatrix (t : vtkTransform) (m : Mat4) : vtkTransform :=
  { t with mat := m }

/-- Modelled from the spec: read the current matrix of the transform. -/
def vtkTransform.GetMatrix (t : vtkTransform) : Mat4 := t.mat

/-- A numpy ndarray of real numbers, of a priori unknown shape: the two
dimensions plus a total entry function (entries outside the shape are
irrelevant junk). -/
structure NDArray where
  rows : ℕ
  cols : ℕ
  entry : ℕ → ℕ → ℝ

/-- Row-major flattening of an ndarray (numpy `flatten`). -/
def NDArray.flatten (a : NDArray) : ℕ → ℝ :=
  fun k => a.entry (k / a.cols) (k % a.cols)

/-- Rebuilding a 4x4 matrix from a row-major 16-element sequence, as
vtkTransform.SetMatrix does with a flat argument. -/
def matrixFromFlat (l : ℕ → ℝ) : Mat4 :=
  Matrix.of fun i j => l (4 * i.val + j.val)

/-- Error type for the module; `InvalidShape` is the failure of the
shape assertion in `getTransformFromNumpy` (the spec name for the
AssertionError raised by `assert mat.shape == (4,4)`). -/
inductive VtkError where
  | InvalidShape
deriving DecidableEq

/-- Embedding of `getTransformFromNumpy(mat)`: assert that the array is
4x4 (else fail with `InvalidShape`), then build a fresh vtkTransform and
set its matrix from the flattened array. -/
def getTransformFromNumpy (mat : NDArray) : Except VtkError vtkTransform :=
  if mat.rows = 4 ∧ mat.cols = 4 then
    Except.ok (vtkTransform.new.SetMatrix (matrixFromFlat mat.flatten))
  else
    Except.error VtkError.InvalidShape

/-- Embedding of `getNumpyFromTransform(transform)`: read the 16 elements
of the transform matrix into a 4x4 array. -/
def getNumpyFromTransform (transform : vtkTransform) : Mat4 :=
  Matrix.of fun r c => transform.GetMatrix r c

/-- Embedding of `concatenateTransforms(transformList)`: a fresh transform,
switched to post-multiply mode, onto which every element of the list is
concatenated in order. -/
def concatenateTransforms (transformList : List vtkTransform) : vtkTransform :=
  transformList.foldl (fun result t => result.Concatenate t.mat)
    vtkTransform.new.PostMultiply

/-- Embedding of `ApplyTransformation(actor_transform, numpy_translation,
numpy_rotation, order, post)`: set the composition mode from `post`, then
concatenate the optional matrices in the order selected by `order`
(0 = rotation then translation, otherwise translation then rotation);
a `none` argument is skipped.  The returned value is the final state of
the mutated `actor_transform`. -/
def ApplyTransformation (actor_transform : vtkTransform)
    (numpy_translation numpy_rotation : Option Mat4)
    (order : ℕ) (post : Bool) : vtkTransform :=
  let t0 := if post then actor_transform.PostMultiply
            else actor_transform.PreMultiply
  if order = 0 then
    let t1 := match numpy_rotation with
      | some r => t0.Concatenate r
      | none => t0
    match numpy_translation with
      | some tr => t1.Concatenate tr
      | none => t1
  else
    let t1 := match numpy_translation with
      | some tr => t0.Concatenate tr
      | none => t0
    match numpy_rotation with
      | some r => t1.Concatenate r
      | none => t1

/-- A 3-component real vector (numpy array of length 3). -/
structure Vec3 where
  x : ℝ
  y : ℝ
  z : ℝ

def Vec3.add (a b : Vec3) : Vec3 := ⟨a.x + b.x, a.y + b.y, a.z + b.z⟩

def Vec3.sub (a b : Vec3) : Vec3 := ⟨a.x - b.x, a.y - b.y, a.z - b.z⟩

def Vec3.smul (c : ℝ) (a : Vec3) : Vec3 := ⟨c * a.x, c * a.y, c * a.z⟩

def Vec3.dot (a b : Vec3) : ℝ := a.x * b.x + a.y * b.y + a.z * b.z

/-- Euclidean norm (numpy.linalg.norm). -/
def Vec3.norm (a : Vec3) : ℝ := Real.sqrt (a.dot a)

/-- Componentwise division by a scalar (numpy broadcasting). -/
def Vec3.divs (a : Vec3) (c : ℝ) : Vec3 := ⟨a.x / c, a.y / c, a.z / c⟩

/-- Cross product (numpy.cross). -/
def Vec3.cross (a b : Vec3) : Vec3 :=
  ⟨a.y * b.z - a.z * b.y, a.z * b.x - a.x * b.z, a.x * b.y - a.y * b.x⟩

/-- A quaternion in the (w, x, y, z) component order used by the
transformations library. -/
structure Quat where
  w : ℝ
  x : ℝ
  y : ℝ
  z : ℝ

def Quat.neg (q : Quat) : Quat := ⟨-q.w, -q.x, -q.y, -q.z⟩

def Quat.add (a b : Quat) : Quat := ⟨a.w + b.w, a.x + b.x, a.y + b.y, a.z + b.z⟩

def Quat.smul (c : ℝ) (q : Quat) : Quat := ⟨c * q.w, c * q.x, c * q.y, c * q.z⟩

/-- The 4-vector dot product of two quaternions (numpy.dot). -/
def Quat.dot (a b : Quat) : ℝ := a.w * b.w + a.x * b.x + a.y * b.y + a.z * b.z

/-- Modelled from the spec: the tolerance `_EPS` of the transformations
library, numpy.finfo(float64).eps * 4.0 = 2 ^ (-50). -/
def EPS : ℝ := 1 / 2 ^ 50

/-- Modelled from the spec: `transformations.quaternion_matrix(quaternion)`,
"builds rotation matrix from quaternion".  Faithful to the library routine:
if the squared norm n of the quaternion is below `_EPS` the identity is
returned; otherwise the quaternion is scaled by sqrt(2/n) and the matrix is
assembled from pairwise products of the scaled components. -/
def quaternion_matrix (quaternion : Quat) : Mat4 :=
  let n := quaternion.dot quaternion
  if n < EPS then 1 else
  let s := Real.sqrt (2 / n)
  let w := s * quaternion.w
  let x := s * quaternion.x
  let y := s * quaternion.y
  let z := s * quaternion.z
  !![1 - y * y - z * z, x * y - z * w, x * z + y * w, 0;
     x * y + z * w, 1 - x * x - z * z, y * z - x * w, 0;
     x * z - y * w, y * z + x * w, 1 - x * x - y * y, 0;
     0, 0, 0, 1]

/-- Modelled from the spec: `transformations.quaternion_from_matrix(matrix,
isprecise=True)`, the numerically robust unit-quaternion extraction from a
rotation matrix.  It branches on the trace of the 4x4 matrix: if the trace
exceeds M33 the scalar part dominates; otherwise the dominant diagonal
entry among M00, M11, M22 selects one of three symmetric variants.  The
result is scaled by 0.5 / sqrt(t * M33). -/
def quaternion_from_matrix (m : Mat4) : Quat :=
  let t := m 0 0 + m 1 1 + m 2 2 + m 3 3
  if m 3 3 < t then
    let s := 0.5 / Real.sqrt (t * m 3 3)
    ⟨t * s, (m 2 1 - m 1 2) * s, (m 0 2 - m 2 0) * s, (m 1 0 - m 0 1) * s⟩
  else
    if m 0 0 < m 1 1 then
      if m 1 1 < m 2 2 then
        let u := m 2 2 - (m 0 0 + m 1 1) + m 3 3
        let s := 0.5 / Real.sqrt (u * m 3 3)
        ⟨(m 1 0 - m 0 1) * s, (m 2 0 + m 0 2) * s, (m 1 2 + m 2 1) * s, u * s⟩
      else
        let u := m 1 1 - (m 2 2 + m 0 0) + m 3 3
        let s := 0.5 / Real.sqrt (u * m 3 3)
        ⟨(m 0 2 - m 2 0) * s, (m 0 1 + m 1 0) * s, u * s, (m 1 2 + m 2 1) * s⟩
    else
      if m 0 0 < m 2 2 then
        let u := m 2 2 - (m 0 0 + m 1 1) + m 3 3
        let s := 0.5 / Real.sqrt (u * m 3 3)
        ⟨(m 1 0 - m 0 1) * s, (m 2 0 + m 0 2) * s, (m 1 2 + m 2 1) * s, u * s⟩
      else
        let u := m 0 0 - (m 1 1 + m 2 2) + m 3 3
        let s := 0.5 / Real.sqrt (u * m 3 3)
        ⟨(m 2 1 - m 1 2) * s, u * s, (m 0 1 + m 1 0) * s, (m 2 0 + m 0 2) * s⟩

/-- The numpy slice assignment `mat[:3,3] = position`: overwrite the first
three entries of the last column with the position vector. -/
def setTranslation (m : Mat4) (position : Vec3) : Mat4 :=
  Matrix.of fun i j =>
    if j = 3 ∧ i ≠ 3 then ![position.x, position.y, position.z, 0] i else m i j

/-- Embedding of `transformFromPose(position, quaternion)`: the rotation
matrix of the quaternion with its translation column set to the position,
loaded into a fresh vtkTransform (the shape assertion of
getTransformFromNumpy trivially passes on this 4x4 matrix). -/
def transformFromPose (position : Vec3) (quaternion : Quat) : vtkTransform :=
  vtkTransform.new.SetMatrix (setTranslation (quaternion_matrix quaternion) position)

/-- Embedding of `poseFromTransform(transform)`: the translation column and
the quaternion extracted from the transform matrix. -/
def poseFromTransform (transform : vtkTransform) : Vec3 × Quat :=
  let mat := getNumpyFromTransform transform
  (⟨mat 0 3, mat 1 3, mat 2 3⟩, quaternion_from_matrix mat)

/-- Modelled from the spec: `transformations.unit_vector(data)`, the vector
divided by its Euclidean norm. -/
def unit_vector (q : Quat) : Quat :=
  let s := Real.sqrt (q.dot q)
  ⟨q.w / s, q.x / s, q.y / s, q.z / s⟩

/-- Modelled from the spec: `transformations.quaternion_slerp(quat0, quat1,
fraction)` with the default arguments spin=0 and shortestpath=True used by
`frameInterpolate`: spherical linear interpolation along the shortest arc.
Both inputs are first normalized; fractions 0 and 1 return the endpoints;
nearly parallel quaternions return the first endpoint; a negative dot
product flips the second endpoint (shortest path); otherwise the standard
sin-weighted combination is used. -/
def quaternion_slerp (quat0 quat1 : Quat) (fraction : ℝ) : Quat :=
  let q0 := unit_vector quat0
  let q1 := unit_vector quat1
  if fraction = 0 then q0
  else if fraction = 1 then q1
  else
    let d := q0.dot q1
    if |(|d| - 1)| < EPS then q0
    else
      let d2 := if d < 0 then -d else d
      let q1b := if d < 0 then q1.neg else q1
      let angle := Real.arccos d2
      if |angle| < EPS then q0
      else
        let isin := 1 / Real.sin angle
        (Quat.smul (Real.sin ((1 - fraction) * angle) * isin) q0).add
          (Quat.smul (Real.sin (fraction * angle) * isin) q1b)

/-- Embedding of `frameInterpolate(trans_a, trans_b, weight_b)`: linear
interpolation of the two extracted positions and SLERP of the two
extracted quaternions, recombined through `transformFromPose`. -/
def frameInterpolate (trans_a trans_b : vtkTransform) (weight_b : ℝ) :
    vtkTransform :=
  let pos_a := (poseFromTransform trans_a).1
  let quat_a := (poseFromTransform trans_a).2
  let pos_b := (poseFromTransform trans_b).1
  let quat_b := (poseFromTransform trans_b).2
  let pos_c := (Vec3.smul (1 - weight_b) pos_a).add (Vec3.smul weight_b pos_b)
  let quat_c := quaternion_slerp quat_a quat_b weight_b
  transformFromPose pos_c quat_c

abbrev Mat3 : Type := Matrix (Fin 3) (Fin 3) ℝ

/-- Numpy `np.array([xaxis, yaxis, zaxis]).transpose()`: the 3x3 matrix
with the three axis vectors as columns. -/
def axesToColumns (xaxis yaxis zaxis : Vec3) : Mat3 :=
  !![xaxis.x, yaxis.x, zaxis.x;
     xaxis.y, yaxis.y, zaxis.y;
     xaxis.z, yaxis.z, zaxis.z]

/-- Modelled from the spec: vtkMath.Normalize, the vector divided by its
Euclidean norm (VTK leaves a zero vector unchanged; in the real-number
embedding division by zero yields zero, so the two agree). -/
def Vec3.normalize (v : Vec3) : Vec3 := v.divs v.norm

/-- Orthonormality of a 3x3 matrix: transpose times the matrix is the
identity (the columns are pairwise orthogonal unit vectors). -/
def IsOrtho3 (b : Mat3) : Prop := b.transpose * b = 1

/-- Gram-Schmidt orthonormalization of the three columns of a 3x3 matrix
(the computational part of the modelled vtkMath.Orthogonalize3x3). -/
def gramSchmidt3 (a : Mat3) : Mat3 :=
  let c0 : Vec3 := ⟨a 0 0, a 1 0, a 2 0⟩
  let c1 : Vec3 := ⟨a 0 1, a 1 1, a 2 1⟩
  let c2 : Vec3 := ⟨a 0 2, a 1 2, a 2 2⟩
  let u0 := c0.normalize
  let u1 := (c1.sub (Vec3.smul (c1.dot u0) u0)).normalize
  let u2 := ((c2.sub (Vec3.smul (c2.dot u0) u0)).sub
    (Vec3.smul (c2.dot u1) u1)).normalize
  axesToColumns u0 u1 u2

/-- Modelled from the spec: vtkMath.Orthogonalize3x3, the library-provided
orthogonalization, a "Gram-Schmidt-like correction to ensure exact
orthonormality".  Gram-Schmidt on the three columns; since the VTK routine
produces an orthonormal (quaternion-derived) matrix for every input, a
degenerate input on which Gram-Schmidt collapses falls back to the
identity, so the output is orthonormal for every input. -/
def Orthogonalize3x3 (a : Mat3) : Mat3 :=
  @ite _ (IsOrtho3 (gramSchmidt3 a)) (Classical.propDecidable _)
    (gramSchmidt3 a) 1

/-- Modelled from the spec: a fresh vtkMatrix4x4 is the identity; writing
the 3x3 block into it and loading the result gives this embedding. -/
def embed3 (b : Mat3) : Mat4 :=
  !![b 0 0, b 0 1, b 0 2, 0;
     b 1 0, b 1 1, b 1 2, 0;
     b 2 0, b 2 1, b 2 2, 0;
     0, 0, 0, 1]

/-- The homogeneous translation matrix of a vector. -/
def translationMat (v : Vec3) : Mat4 :=
  !![1, 0, 0, v.x;
     0, 1, 0, v.y;
     0, 0, 1, v.z;
     0, 0, 0, 1]

/-- Modelled from the spec: vtkTransform.Translate concatenates a
translation matrix according to the current composition mode. -/
def vtkTransform.Translate (t : vtkTransform) (v : Vec3) : vtkTransform :=
  t.Concatenate (translationMat v)

/-- Embedding of `getTransformFromAxes(xaxis, yaxis, zaxis)`: the three
axes as columns, orthogonalized by the library routine, written into the
3x3 block of an identity vtkMatrix4x4 and loaded into a fresh transform. -/
def getTransformFromAxes (xaxis yaxis zaxis : Vec3) : vtkTransform :=
  vtkTransform.new.SetMatrix
    (embed3 (Orthogonalize3x3 (axesToColumns xaxis yaxis zaxis)))

/-- Embedding of `getTransformFromAxesAndOrigin`: the axes frame, switched
to post-multiply and translated by the origin. -/
def getTransformFromAxesAndOrigin (xaxis yaxis zaxis origin : Vec3) :
    vtkTransform :=
  ((getTransformFromAxes xaxis yaxis zaxis).PostMultiply).Translate origin

/-- Embedding of `getLookAtTransform(lookAtPosition, lookFromPosition,
viewUp)`: the X axis points from `lookFromPosition` toward
`lookAtPosition`, falling back to world X when the two points coincide
within 1e-8; the Z axis starts from `viewUp`; Y = Z x X normalized;
Z is re-derived as X x Y; the frame is placed at `lookFromPosition`. -/
def getLookAtTransform (lookAtPosition lookFromPosition viewUp : Vec3) :
    vtkTransform :=
  let xaxis0 := lookAtPosition.sub lookFromPosition
  let xaxis1 := if xaxis0.norm < 1e-8 then (⟨1, 0, 0⟩ : Vec3) else xaxis0
  let xaxis := xaxis1.divs xaxis1.norm
  let zaxis0 := viewUp.divs viewUp.norm
  let yaxis0 := zaxis0.cross xaxis
  let yaxis := yaxis0.divs yaxis0.norm
  let zaxis := xaxis.cross yaxis
  getTransformFromAxesAndOrigin xaxis yaxis zaxis lookFromPosition

/-- The 3x3 rotation block of a 4x4 homogeneous matrix. -/
def rot3 (m : Mat4) : Mat3 :=
  !![m 0 0, m 0 1, m 0 2;
     m 1 0, m 1 1, m 1 2;
     m 2 0, m 2 1, m 2 2]

/-- Modelled from the spec: vtkTransform.TransformNormal applies the
rotation-only action of the transform to a direction: multiplication by
the transposed inverse of the current matrix (ignoring translation),
followed by normalization. -/
def vtkTransform.TransformNormal (t : vtkTransform) (v : Vec3) : Vec3 :=
  let mi := t.mat⁻¹
  Vec3.normalize ⟨v.x * mi 0 0 + v.y * mi 1 0 + v.z * mi 2 0,
    v.x * mi 0 1 + v.y * mi 1 1 + v.z * mi 2 1,
    v.x * mi 0 2 + v.y * mi 1 2 + v.z * mi 2 2⟩

/-- Embedding of `getAxesFromTransform(t)`: the images of the three world
axes under the normal transform. -/
def getAxesFromTransform (t : vtkTransform) : Vec3 × Vec3 × Vec3 :=
  (t.TransformNormal ⟨1, 0, 0⟩, t.TransformNormal ⟨0, 1, 0⟩,
   t.TransformNormal ⟨0, 0, 1⟩)

/-- The three axes of `getAxesFromTransform` as a `Fin 3`-indexed family. -/
def axisTriple (t : vtkTransform) : Fin 3 → Vec3 :=
  ![(getAxesFromTransform t).1, (getAxesFromTransform t).2.1,
    (getAxesFromTransform t).2.2]

/-- Model of numpy.sign on the reals. -/
def npsign (a : ℝ) : ℝ := if a < 0 then -1 else if 0 < a then 1 else 0

/-- Model of numpy.argmax over three values: the first index attaining the
maximum. -/
def argmax3 (p0 p1 p2 : ℝ) : Fin 3 :=
  if p1 ≤ p0 ∧ p2 ≤ p0 then 0 else if p2 ≤ p1 then 1 else 2

/-- Embedding of `findTransformAxis(transform, referenceVector)`: the
reference is normalized; the transform axis with the largest absolute dot
product against it is selected (first index on ties); the result is the
index, that axis, and the sign of the non-absolute dot product. -/
def findTransformAxis (transform : vtkTransform) (referenceVector : Vec3) :
    Fin 3 × Vec3 × ℝ :=
  let refAxis := referenceVector.divs referenceVector.norm
  let proj : Fin 3 → ℝ := fun i => |(axisTriple transform i).dot refAxis|
  let matchIndex := argmax3 (proj 0) (proj 1) (proj 2)
  let matchAxis := axisTriple transform matchIndex
  (matchIndex, matchAxis, npsign (matchAxis.dot refAxis))

/- ------------------------------------------------------------------ -/
/- Helper lemmas                                                       -/
/- ------------------------------------------------------------------ -/

lemma quaternion_matrix_of_unit (q : Quat) (h : q.dot q = 1) :
    quaternion_matrix q =
      !![1 - 2*(q.y*q.y + q.z*q.z), 2*(q.x*q.y - q.z*q.w), 2*(q.x*q.z + q.y*q.w), 0;
         2*(q.x*q.y + q.z*q.w), 1 - 2*(q.x*q.x + q.z*q.z), 2*(q.y*q.z - q.x*q.w), 0;
         2*(q.x*q.z - q.y*q.w), 2*(q.y*q.z + q.x*q.w), 1 - 2*(q.x*q.x + q.y*q.y), 0;
         0, 0, 0, 1] := by
  have hEPS : ¬ ((1:ℝ) < EPS) := by norm_num [EPS]
  have h2 : Real.sqrt 2 ^ 2 = 2 := Real.sq_sqrt (by norm_num)
  simp only [quaternion_matrix, h]
  rw [show (2:ℝ)/1 = 2 from by norm_num, if_neg hEPS]
  ext i j
  fin_cases i <;> fin_cases j <;>
    simp <;>
    (ring_nf; rw [h2]; ring)

lemma setTranslation_explicit (a00 a01 a02 a03 a10 a11 a12 a13
    a20 a21 a22 a23 a30 a31 a32 a33 : ℝ) (v : Vec3) :
    setTranslation !![a00, a01, a02, a03; a10, a11, a12, a13;
                      a20, a21, a22, a23; a30, a31, a32, a33] v
      = !![a00, a01, a02, v.x; a10, a11, a12, v.y;
           a20, a21, a22, v.z; a30, a31, a32, a33] := by
  ext r s
  fin_cases r <;> fin_cases s <;> simp [setTranslation]

lemma quaternion_from_matrix_of_pose (p : Vec3) (q : Quat) (h : q.dot q = 1) :
    quaternion_from_matrix (setTranslation (quaternion_matrix q) p) = q ∨
    quaternion_from_matrix (setTranslation (quaternion_matrix q) p) = q.neg := by
  obtain ⟨w, x, y, z⟩ := q
  simp only [Quat.dot] at h
  rw [quaternion_matrix_of_unit _ (by simpa [Quat.dot] using h), setTranslation_explicit]
  simp only [quaternion_from_matrix, Quat.neg]
  norm_num
  split_ifs with h1 h2 h3 h4
  · -- trace-dominant branch: the scalar part w dominates
    have hww : (1:ℝ) < 4*(w*w) := by linarith
    have hw : w ≠ 0 := by intro h0; rw [h0] at hww; norm_num at hww
    rw [show (1 - 2 * (y * y + z * z) + (1 - 2 * (x * x + z * z))
        + (1 - 2 * (x * x + y * y)) + 1 : ℝ) = (2*w)^2 from by
      linear_combination (-4:ℝ)*h]
    rw [Real.sqrt_sq_eq_abs]
    have hne : (2:ℝ)*w ≠ 0 := mul_ne_zero two_ne_zero hw
    rcases hw.lt_or_lt with hneg | hpos
    · right
      rw [abs_of_neg (by linarith : (2:ℝ)*w < 0)]
      simp only [Quat.mk.injEq]
      refine ⟨?_, ?_, ?_, ?_⟩ <;> field_simp <;> ring
    · left
      rw [abs_of_pos (by linarith : (0:ℝ) < 2*w)]
      simp only [Quat.mk.injEq]
      refine ⟨?_, ?_, ?_, ?_⟩ <;> field_simp <;> ring
  · -- diagonal branch with z dominant
    have h1' := not_lt.mp h1
    have hzz : (1:ℝ) ≤ 4*(z*z) := by linarith
    have hz : z ≠ 0 := by intro h0; rw [h0] at hzz; norm_num at hzz
    rw [show (1 - 2 * (x * x + y * y) - (1 - 2 * (y * y + z * z)
        + (1 - 2 * (x * x + z * z))) + 1 : ℝ) = (2*z)^2 from by ring]
    rw [Real.sqrt_sq_eq_abs]
    have hne : (2:ℝ)*z ≠ 0 := mul_ne_zero two_ne_zero hz
    rcases hz.lt_or_lt with hneg | hpos
    · right
      rw [abs_of_neg (by linarith : (2:ℝ)*z < 0)]
      simp only [Quat.mk.injEq]
      refine ⟨?_, ?_, ?_, ?_⟩ <;> field_simp <;> ring
    · left
      rw [abs_of_pos (by linarith : (0:ℝ) < 2*z)]
      simp only [Quat.mk.injEq]
      refine ⟨?_, ?_, ?_, ?_⟩ <;> field_simp <;> ring
  · -- diagonal branch with y dominant
    have h1' := not_lt.mp h1
    have h3' := not_lt.mp h3
    have hyy : (1:ℝ) ≤ 4*(y*y) := by linarith
    have hy : y ≠ 0 := by intro h0; rw [h0] at hyy; norm_num at hyy
    rw [show (1 - 2 * (x * x + z * z) - (1 - 2 * (x * x + y * y)
        + (1 - 2 * (y * y + z * z))) + 1 : ℝ) = (2*y)^2 from by ring]
    rw [Real.sqrt_sq_eq_abs]
    have hne : (2:ℝ)*y ≠ 0 := mul_ne_zero two_ne_zero hy
    rcases hy.lt_or_lt with hneg | hpos
    · right
      rw [abs_of_neg (by linarith : (2:ℝ)*y < 0)]
      simp only [Quat.mk.injEq]
      refine ⟨?_, ?_, ?_, ?_⟩ <;> field_simp <;> ring
    · left
      rw [abs_of_pos (by linarith : (0:ℝ) < 2*y)]
      simp only [Quat.mk.injEq]
      refine ⟨?_, ?_, ?_, ?_⟩ <;> field_simp <;> ring
  · -- diagonal branch with z dominant, reached with x maximal over y
    have h1' := not_lt.mp h1
    have h2' := not_lt.mp h2
    have hzz : (1:ℝ) ≤ 4*(z*z) := by linarith
    have hz : z ≠ 0 := by intro h0; rw [h0] at hzz; norm_num at hzz
    rw [show (1 - 2 * (x * x + y * y) - (1 - 2 * (y * y + z * z)
        + (1 - 2 * (x * x + z * z))) + 1 : ℝ) = (2*z)^2 from by ring]
    rw [Real.sqrt_sq_eq_abs]
    have hne : (2:ℝ)*z ≠ 0 := mul_ne_zero two_ne_zero hz
    rcases hz.lt_or_lt with hneg | hpos
    · right
      rw [abs_of_neg (by linarith : (2:ℝ)*z < 0)]
      simp only [Quat.mk.injEq]
      refine ⟨?_, ?_, ?_, ?_⟩ <;> field_simp <;> ring
    · left
      rw [abs_of_pos (by linarith : (0:ℝ) < 2*z)]
      simp only [Quat.mk.injEq]
      refine ⟨?_, ?_, ?_, ?_⟩ <;> field_simp <;> ring
  · -- diagonal branch with x dominant
    have h1' := not_lt.mp h1
    have h2' := not_lt.mp h2
    have h4' := not_lt.mp h4
    have hxx : (1:ℝ) ≤ 4*(x*x) := by linarith
    have hx : x ≠ 0 := by intro h0; rw [h0] at hxx; norm_num at hxx
    rw [show (1 - 2 * (y * y + z * z) - (1 - 2 * (x * x + z * z)
        + (1 - 2 * (x * x + y * y))) + 1 : ℝ) = (2*x)^2 from by ring]
    rw [Real.sqrt_sq_eq_abs]
    have hne : (2:ℝ)*x ≠ 0 := mul_ne_zero two_ne_zero hx
    rcases hx.lt_or_lt with hneg | hpos
    · right
      rw [abs_of_neg (by linarith : (2:ℝ)*x < 0)]
      simp only [Quat.mk.injEq]
      refine ⟨?_, ?_, ?_, ?_⟩ <;> field_simp <;> ring
    · left
      rw [abs_of_pos (by linarith : (0:ℝ) < 2*x)]
      simp only [Quat.mk.injEq]
      refine ⟨?_, ?_, ?_, ?_⟩ <;> field_simp <;> ring

lemma poseFromTransform_fst (p : Vec3) (q : Quat) :
    (poseFromTransform (transformFromPose p q)).1 = p := by
  obtain ⟨px, py, pz⟩ := p
  show Vec3.mk (setTranslation (quaternion_matrix q) ⟨px, py, pz⟩ 0 3)
      (setTranslation (quaternion_matrix q) ⟨px, py, pz⟩ 1 3)
      (setTranslation (quaternion_matrix q) ⟨px, py, pz⟩ 2 3) = ⟨px, py, pz⟩
  simp [setTranslation]

lemma Quat.dot_neg_self (q : Quat) : q.neg.dot q.neg = q.dot q := by
  simp only [Quat.dot, Quat.neg]
  ring

lemma quaternion_matrix_neg (q : Quat) :
    quaternion_matrix q.neg = quaternion_matrix q := by
  obtain ⟨w, x, y, z⟩ := q
  have hn : Quat.dot ⟨-w, -x, -y, -z⟩ ⟨-w, -x, -y, -z⟩
      = Quat.dot ⟨w, x, y, z⟩ ⟨w, x, y, z⟩ := by
    simp only [Quat.dot]
    ring
  simp only [quaternion_matrix, Quat.neg, hn]
  split_ifs with hc
  · rfl
  · ext i j
    fin_cases i <;> fin_cases j <;> simp

lemma transformFromPose_neg (p : Vec3) (q : Quat) :
    transformFromPose p q.neg = transformFromPose p q := by
  unfold transformFromPose
  rw [quaternion_matrix_neg]

lemma unit_vector_of_unit (q : Quat) (h : q.dot q = 1) : unit_vector q = q := by
  obtain ⟨w, x, y, z⟩ := q
  simp [unit_vector, h]

lemma quaternion_slerp_zero (q0 q1 : Quat) :
    quaternion_slerp q0 q1 0 = unit_vector q0 := by
  simp [quaternion_slerp]

lemma quaternion_slerp_one (q0 q1 : Quat) :
    quaternion_slerp q0 q1 1 = unit_vector q1 := by
  simp [quaternion_slerp]

lemma quaternion_slerp_same (q : Quat) (h : q.dot q = 1) (w : ℝ) :
    quaternion_slerp q q w = q := by
  by_cases hw0 : w = 0
  · rw [hw0, quaternion_slerp_zero, unit_vector_of_unit q h]
  by_cases hw1 : w = 1
  · rw [hw1, quaternion_slerp_one, unit_vector_of_unit q h]
  unfold quaternion_slerp
  rw [if_neg hw0, if_neg hw1, unit_vector_of_unit q h]
  rw [if_pos]
  rw [h]
  norm_num [EPS]

lemma frameInterpolate_eq (a b : vtkTransform) (w : ℝ) :
    frameInterpolate a b w = transformFromPose
      ((Vec3.smul (1 - w) (poseFromTransform a).1).add
        (Vec3.smul w (poseFromTransform b).1))
      (quaternion_slerp (poseFromTransform a).2 (poseFromTransform b).2 w) := rfl

lemma lerp_pos_zero (p p' : Vec3) :
    (Vec3.smul (1 - 0) p).add (Vec3.smul 0 p') = p := by
  obtain ⟨a, b, c⟩ := p
  obtain ⟨a', b', c'⟩ := p'
  simp [Vec3.smul, Vec3.add]

lemma lerp_pos_one (p p' : Vec3) :
    (Vec3.smul (1 - 1) p).add (Vec3.smul 1 p') = p' := by
  obtain ⟨a, b, c⟩ := p
  obtain ⟨a', b', c'⟩ := p'
  simp [Vec3.smul, Vec3.add]

lemma lerp_pos_same (p : Vec3) (w : ℝ) :
    (Vec3.smul (1 - w) p).add (Vec3.smul w p) = p := by
  obtain ⟨a, b, c⟩ := p
  simp only [Vec3.smul, Vec3.add, Vec3.mk.injEq]
  refine ⟨?_, ?_, ?_⟩ <;> ring

lemma vtkTransform.Concatenate_one (t : vtkTransform) : t.Concatenate 1 = t := by
  unfold vtkTransform.Concatenate
  split <;> simp

lemma vtkTransform.Concatenate_mat (t : vtkTransform) (c : Mat4) :
    (t.Concatenate c).mat = if t.postMul then c * t.mat else t.mat * c := by
  unfold vtkTransform.Concatenate
  split <;> simp_all

lemma vtkTransform.Concatenate_postMul (t : vtkTransform) (c : Mat4) :
    (t.Concatenate c).postMul = t.postMul := by
  unfold vtkTransform.Concatenate
  split <;> rfl

lemma concatenateTransforms_foldl (l : List vtkTransform) (t : vtkTransform)
    (h : t.postMul = true) :
    (l.foldl (fun result u => result.Concatenate u.mat) t).mat
      = ((l.map vtkTransform.mat).reverse.prod) * t.mat ∧
    (l.foldl (fun result u => result.Concatenate u.mat) t).postMul = true := by
  induction l generalizing t with
  | nil => simpa using h
  | cons u l ih =>
    have hc : (t.Concatenate u.mat).postMul = true := by
      rw [vtkTransform.Concatenate_postMul]; exact h
    rcases ih (t.Concatenate u.mat) hc with ⟨h1, h2⟩
    refine ⟨?_, h2⟩
    rw [List.foldl_cons, h1, vtkTransform.Concatenate_mat, if_pos h]
    simp [List.prod_append, mul_assoc]

lemma IsOrtho3_one : IsOrtho3 (1 : Mat3) := by
  simp [IsOrtho3]

lemma Orthogonalize3x3_isOrtho (a : Mat3) : IsOrtho3 (Orthogonalize3x3 a) := by
  unfold Orthogonalize3x3
  split_ifs with hb
  · exact hb
  · exact IsOrtho3_one

lemma rot3_embed3 (b : Mat3) : rot3 (embed3 b) = b := by
  ext i j
  fin_cases i <;> fin_cases j <;>
    simp [rot3, embed3, Matrix.vecHead, Matrix.vecTail]

lemma one_Mat3_lit : (1 : Mat3) = !![1, 0, 0; 0, 1, 0; 0, 0, 1] := by
  ext i j
  fin_cases i <;> fin_cases j <;>
    norm_num [Matrix.one_apply, Fin.ext_iff]

lemma axesToColumns_id :
    axesToColumns ⟨1, 0, 0⟩ ⟨0, 1, 0⟩ ⟨0, 0, 1⟩ = (1 : Mat3) := by
  rw [one_Mat3_lit]
  rfl

lemma gramSchmidt3_one : gramSchmidt3 (1 : Mat3) = 1 := by
  rw [one_Mat3_lit]
  norm_num [gramSchmidt3, Vec3.normalize, Vec3.norm, Vec3.dot, Vec3.sub,
    Vec3.smul, Vec3.divs, Matrix.vecHead, Matrix.vecTail]
  rw [axesToColumns_id, one_Mat3_lit]

lemma Orthogonalize3x3_one : Orthogonalize3x3 (1 : Mat3) = 1 := by
  unfold Orthogonalize3x3
  rw [gramSchmidt3_one, if_pos IsOrtho3_one]

lemma embed3_one : embed3 (1 : Mat3) = (1 : Mat4) := by
  ext i j
  fin_cases i <;> fin_cases j <;>
    norm_num [embed3, Matrix.one_apply, Matrix.vecHead, Matrix.vecTail,
      Fin.ext_iff]

lemma rot3_translationMat (v : Vec3) : rot3 (translationMat v) = 1 := by
  ext i j
  fin_cases i <;> fin_cases j <;>
    norm_num [rot3, translationMat, Matrix.one_apply, Matrix.vecHead,
      Matrix.vecTail, Fin.ext_iff]

/- ------------------------------------------------------------------ -/
/- Claim theorems                                                      -/
/- ------------------------------------------------------------------ -/

/-- C1: for every 4x4 matrix M, converting M to a transform with
`getTransformFromNumpy` succeeds and reading it back with
`getNumpyFromTransform` returns a matrix equal to M (exactly, in the
idealized real-number semantics, hence within floating-point tolerance). -/
theorem getTransformFromNumpy_roundTrip (a : NDArray)
    (hr : a.rows = 4) (hc : a.cols = 4) :
    ∃ t, getTransformFromNumpy a = Except.ok t ∧
      ∀ i j : Fin 4, getNumpyFromTransform t i j = a.entry i j := by
  refine ⟨vtkTransform.new.SetMatrix (matrixFromFlat a.flatten), ?_, ?_⟩
  · unfold getTransformFromNumpy
    rw [if_pos ⟨hr, hc⟩]
  · intro i j
    show matrixFromFlat a.flatten i j = a.entry i j
    unfold matrixFromFlat NDArray.flatten
    show a.entry ((4 * i.val + j.val) / a.cols) ((4 * i.val + j.val) % a.cols)
      = a.entry i.val j.val
    have hi := i.isLt
    have hj := j.isLt
    congr 1 <;> rw [hc] <;> omega

/-- Witness for C1 at the concrete all-zero 4x4 array. -/
theorem getTransformFromNumpy_roundTrip_witness :
    ∃ t, getTransformFromNumpy ⟨4, 4, fun _ _ => 0⟩ = Except.ok t ∧
      ∀ i j : Fin 4, getNumpyFromTransform t i j
        = (⟨4, 4, fun _ _ => 0⟩ : NDArray).entry i j :=
  getTransformFromNumpy_roundTrip ⟨4, 4, fun _ _ => 0⟩ rfl rfl

/-- C2: `getTransformFromNumpy` succeeds exactly on 4x4 inputs, and fails
with `InvalidShape` exactly on inputs that are not 4x4. -/
theorem getTransformFromNumpy_invalidShape (a : NDArray) :
    ((∃ t, getTransformFromNumpy a = Except.ok t) ↔ (a.rows = 4 ∧ a.cols = 4)) ∧
    (getTransformFromNumpy a = Except.error VtkError.InvalidShape
      ↔ ¬(a.rows = 4 ∧ a.cols = 4)) := by
  unfold getTransformFromNumpy
  by_cases h : a.rows = 4 ∧ a.cols = 4 <;> simp [h]

/-- C3: for every unit quaternion q and every position p,
`poseFromTransform (transformFromPose p q)` returns the position p together
with either q or -q (exactly, in the real-number embedding). -/
theorem poseFromTransform_transformFromPose (p : Vec3) (q : Quat)
    (h : q.dot q = 1) :
    (poseFromTransform (transformFromPose p q)).1 = p ∧
    ((poseFromTransform (transformFromPose p q)).2 = q ∨
     (poseFromTransform (transformFromPose p q)).2 = q.neg) := by
  constructor
  · obtain ⟨px, py, pz⟩ := p
    show Vec3.mk (setTranslation (quaternion_matrix q) ⟨px, py, pz⟩ 0 3)
        (setTranslation (quaternion_matrix q) ⟨px, py, pz⟩ 1 3)
        (setTranslation (quaternion_matrix q) ⟨px, py, pz⟩ 2 3) = ⟨px, py, pz⟩
    simp [setTranslation]
  · exact quaternion_from_matrix_of_pose p q h

/-- Witness for C3 at the identity pose. -/
theorem poseFromTransform_transformFromPose_witness :
    (poseFromTransform (transformFromPose ⟨0, 0, 0⟩ ⟨1, 0, 0, 0⟩)).1 = ⟨0, 0, 0⟩ ∧
    ((poseFromTransform (transformFromPose ⟨0, 0, 0⟩ ⟨1, 0, 0, 0⟩)).2 = ⟨1, 0, 0, 0⟩ ∨
     (poseFromTransform (transformFromPose ⟨0, 0, 0⟩ ⟨1, 0, 0, 0⟩)).2
       = Quat.neg ⟨1, 0, 0, 0⟩) :=
  poseFromTransform_transformFromPose ⟨0, 0, 0⟩ ⟨1, 0, 0, 0⟩
    (by norm_num [Quat.dot])

/-- C4: `concatenateTransforms` returns a transform in post-multiply mode
whose matrix is the post-multiply concatenation of the list elements in
order (the product of their matrices in reverse list order); the empty
list yields the identity and a singleton list yields a transform with the
same matrix as its element. -/
theorem concatenateTransforms_spec :
    (concatenateTransforms []).mat = 1 ∧
    (∀ t, (concatenateTransforms [t]).mat = t.mat) ∧
    (∀ l, (concatenateTransforms l).postMul = true ∧
      (concatenateTransforms l).mat = (l.map vtkTransform.mat).reverse.prod) := by
  have key : ∀ l : List vtkTransform,
      (concatenateTransforms l).mat = (l.map vtkTransform.mat).reverse.prod ∧
      (concatenateTransforms l).postMul = true := by
    intro l
    have h := concatenateTransforms_foldl l vtkTransform.new.PostMultiply rfl
    rcases h with ⟨h1, h2⟩
    refine ⟨?_, h2⟩
    rw [show concatenateTransforms l
        = l.foldl (fun result u => result.Concatenate u.mat)
            vtkTransform.new.PostMultiply from rfl, h1]
    show _ * (1 : Mat4) = _
    rw [mul_one]
  refine ⟨?_, ?_, fun l => ⟨(key l).2, (key l).1⟩⟩
  · simpa using (key []).1
  · intro t
    simpa using (key [t]).1

/-- C7 (amended): for frames built by `transformFromPose` from a position
and a unit quaternion, `frameInterpolate` at weight 0 returns the first
frame, at weight 1 the second frame, and interpolating a frame with itself
returns that frame at every weight; moreover, for every weight the
interpolated position is (1-w)*posA + w*posB and the result recombines
that position with the shortest-arc SLERP of the two extracted
quaternions. -/
theorem frameInterpolate_spec (p p' : Vec3) (q q' : Quat)
    (h : q.dot q = 1) (h' : q'.dot q' = 1) (w : ℝ) :
    frameInterpolate (transformFromPose p q) (transformFromPose p' q') 0
      = transformFromPose p q ∧
    frameInterpolate (transformFromPose p q) (transformFromPose p' q') 1
      = transformFromPose p' q' ∧
    frameInterpolate (transformFromPose p q) (transformFromPose p q) w
      = transformFromPose p q ∧
    (poseFromTransform (frameInterpolate (transformFromPose p q)
        (transformFromPose p' q') w)).1
      = (Vec3.smul (1 - w) p).add (Vec3.smul w p') ∧
    frameInterpolate (transformFromPose p q) (transformFromPose p' q') w
      = transformFromPose
          ((Vec3.smul (1 - w) p).add (Vec3.smul w p'))
          (quaternion_slerp (poseFromTransform (transformFromPose p q)).2
            (poseFromTransform (transformFromPose p' q')).2 w) := by
  have hqa : (poseFromTransform (transformFromPose p q)).2 = q ∨
      (poseFromTransform (transformFromPose p q)).2 = q.neg :=
    quaternion_from_matrix_of_pose p q h
  have hqb : (poseFromTransform (transformFromPose p' q')).2 = q' ∨
      (poseFromTransform (transformFromPose p' q')).2 = q'.neg :=
    quaternion_from_matrix_of_pose p' q' h'
  refine ⟨?_, ?_, ?_, ?_, ?_⟩
  · rw [frameInterpolate_eq, poseFromTransform_fst, poseFromTransform_fst,
      quaternion_slerp_zero, lerp_pos_zero]
    rcases hqa with hA | hA
    · rw [hA, unit_vector_of_unit q h]
    · rw [hA, unit_vector_of_unit q.neg (by rw [Quat.dot_neg_self]; exact h),
        transformFromPose_neg]
  · rw [frameInterpolate_eq, poseFromTransform_fst, poseFromTransform_fst,
      quaternion_slerp_one, lerp_pos_one]
    rcases hqb with hB | hB
    · rw [hB, unit_vector_of_unit q' h']
    · rw [hB, unit_vector_of_unit q'.neg (by rw [Quat.dot_neg_self]; exact h'),
        transformFromPose_neg]
  · rw [frameInterpolate_eq, poseFromTransform_fst, lerp_pos_same]
    rcases hqa with hA | hA
    · rw [hA, quaternion_slerp_same q h]
    · rw [hA, quaternion_slerp_same q.neg (by rw [Quat.dot_neg_self]; exact h),
        transformFromPose_neg]
  · rw [frameInterpolate_eq]
    simp only [poseFromTransform_fst]
  · rw [frameInterpolate_eq]
    simp only [poseFromTransform_fst]

/-- Witness for the amended C7 at two concrete frames and weight 1/2. -/
theorem frameInterpolate_spec_witness :
    frameInterpolate (transformFromPose ⟨0, 0, 0⟩ ⟨1, 0, 0, 0⟩)
        (transformFromPose ⟨1, 2, 3⟩ ⟨1, 0, 0, 0⟩) 0
      = transformFromPose ⟨0, 0, 0⟩ ⟨1, 0, 0, 0⟩ ∧
    frameInterpolate (transformFromPose ⟨0, 0, 0⟩ ⟨1, 0, 0, 0⟩)
        (transformFromPose ⟨1, 2, 3⟩ ⟨1, 0, 0, 0⟩) 1
      = transformFromPose ⟨1, 2, 3⟩ ⟨1, 0, 0, 0⟩ ∧
    frameInterpolate (transformFromPose ⟨0, 0, 0⟩ ⟨1, 0, 0, 0⟩)
        (transformFromPose ⟨0, 0, 0⟩ ⟨1, 0, 0, 0⟩) (1/2)
      = transformFromPose ⟨0, 0, 0⟩ ⟨1, 0, 0, 0⟩ ∧
    (poseFromTransform (frameInterpolate (transformFromPose ⟨0, 0, 0⟩ ⟨1, 0, 0, 0⟩)
        (transformFromPose ⟨1, 2, 3⟩ ⟨1, 0, 0, 0⟩) (1/2))).1
      = (Vec3.smul (1 - 1/2) ⟨0, 0, 0⟩).add (Vec3.smul (1/2) ⟨1, 2, 3⟩) ∧
    frameInterpolate (transformFromPose ⟨0, 0, 0⟩ ⟨1, 0, 0, 0⟩)
        (transformFromPose ⟨1, 2, 3⟩ ⟨1, 0, 0, 0⟩) (1/2)
      = transformFromPose
          ((Vec3.smul (1 - 1/2) ⟨0, 0, 0⟩).add (Vec3.smul (1/2) ⟨1, 2, 3⟩))
          (quaternion_slerp
            (poseFromTransform (transformFromPose ⟨0, 0, 0⟩ ⟨1, 0, 0, 0⟩)).2
            (poseFromTransform (transformFromPose ⟨1, 2, 3⟩ ⟨1, 0, 0, 0⟩)).2 (1/2)) :=
  frameInterpolate_spec ⟨0, 0, 0⟩ ⟨1, 2, 3⟩ ⟨1, 0, 0, 0⟩ ⟨1, 0, 0, 0⟩
    (by norm_num [Quat.dot]) (by norm_num [Quat.dot]) (1/2)

/-- Counterexample for C7 as stated: on a non-rigid (pure scale) transform,
`frameInterpolate` at weight 0 does not return its first argument, because
the quaternion round trip rebuilds a pure rotation. -/
theorem frameInterpolate_zero_counterexample :
    frameInterpolate
        ⟨!![(2:ℝ), 0, 0, 0; 0, 2, 0, 0; 0, 0, 2, 0; 0, 0, 0, 1], false⟩
        ⟨!![(2:ℝ), 0, 0, 0; 0, 2, 0, 0; 0, 0, 2, 0; 0, 0, 0, 1], false⟩ 0
      ≠ ⟨!![(2:ℝ), 0, 0, 0; 0, 2, 0, 0; 0, 0, 2, 0; 0, 0, 0, 1], false⟩ := by
  have h7 : Real.sqrt 7 * Real.sqrt 7 = 7 := Real.mul_self_sqrt (by norm_num)
  have h7pos : (0:ℝ) < Real.sqrt 7 := Real.sqrt_pos.mpr (by norm_num)
  have hQ : quaternion_from_matrix
      !![(2:ℝ), 0, 0, 0; 0, 2, 0, 0; 0, 0, 2, 0; 0, 0, 0, 1]
      = ⟨Real.sqrt 7 / 2, 0, 0, 0⟩ := by
    unfold quaternion_from_matrix
    norm_num [Matrix.vecHead, Matrix.vecTail]
    field_simp
    linear_combination (-2 : ℝ) * h7
  have hU : unit_vector ⟨Real.sqrt 7 / 2, 0, 0, 0⟩ = ⟨1, 0, 0, 0⟩ := by
    unfold unit_vector Quat.dot
    norm_num
    rw [show (Real.sqrt 7 / 2) * (Real.sqrt 7 / 2) = (Real.sqrt 7 / 2)^2 from by
      ring, Real.sqrt_sq (by positivity)]
    field_simp
  have hpos : (poseFromTransform
      ⟨!![(2:ℝ), 0, 0, 0; 0, 2, 0, 0; 0, 0, 2, 0; 0, 0, 0, 1], false⟩).1
      = ⟨0, 0, 0⟩ := by
    show Vec3.mk _ _ _ = _
    norm_num [poseFromTransform, getNumpyFromTransform, vtkTransform.GetMatrix]
  have hsnd : (poseFromTransform
      ⟨!![(2:ℝ), 0, 0, 0; 0, 2, 0, 0; 0, 0, 2, 0; 0, 0, 0, 1], false⟩).2
      = ⟨Real.sqrt 7 / 2, 0, 0, 0⟩ := hQ
  intro hEq
  rw [frameInterpolate_eq, hpos, hsnd, quaternion_slerp_zero, hU,
    lerp_pos_zero] at hEq
  rw [show transformFromPose ⟨0, 0, 0⟩ ⟨1, 0, 0, 0⟩
      = vtkTransform.mk (setTranslation (quaternion_matrix ⟨1, 0, 0, 0⟩)
          ⟨0, 0, 0⟩) false from rfl,
    quaternion_matrix_of_unit ⟨1, 0, 0, 0⟩ (by norm_num [Quat.dot]),
    setTranslation_explicit] at hEq
  have h00 := congrArg (fun t : vtkTransform => t.mat 0 0) hEq
  norm_num at h00

/-- C8: in `ApplyTransformation` the translation and rotation arguments are
each optional and an absent argument acts as the identity matrix (a no-op
for that component); a call with both absent leaves the matrix of the
transform unchanged.  The returned value is the final state of the mutated
input transform. -/
theorem ApplyTransformation_optional (t : vtkTransform) (o : ℕ) (p : Bool) :
    (∀ r, ApplyTransformation t none r o p
        = ApplyTransformation t (some 1) r o p) ∧
    (∀ tr, ApplyTransformation t tr none o p
        = ApplyTransformation t tr (some 1) o p) ∧
    (ApplyTransformation t none none o p).mat = t.mat := by
  unfold ApplyTransformation
  refine ⟨?_, ?_, ?_⟩
  · intro r
    by_cases ho : o = 0 <;>
      cases r <;>
        simp [ho, vtkTransform.Concatenate_one]
  · intro tr
    by_cases ho : o = 0 <;>
      cases tr <;>
        simp [ho, vtkTransform.Concatenate_one]
  · by_cases ho : o = 0 <;>
      cases p <;>
        simp [ho, vtkTransform.PostMultiply, vtkTransform.PreMultiply]

/-- C10: every call to `ApplyTransformation` sets the composition mode of
the passed transform to `post` as a side effect, even when both matrix
arguments are `none` (the matrix is then unchanged but the mode change is
durable: a subsequent concatenation multiplies on the side selected by
`post`). -/
theorem ApplyTransformation_setsMode (t : vtkTransform)
    (tr rot : Option Mat4) (o : ℕ) (p : Bool) (c : Mat4) :
    (ApplyTransformation t tr rot o p).postMul = p ∧
    (ApplyTransformation t none none o p).mat = t.mat ∧
    ((ApplyTransformation t none none o true).Concatenate c).mat = c * t.mat ∧
    ((ApplyTransformation t none none o false).Concatenate c).mat = t.mat * c := by
  refine ⟨?_, ?_, ?_, ?_⟩
  · unfold ApplyTransformation
    by_cases ho : o = 0 <;>
      cases p <;>
        cases tr <;>
          cases rot <;>
            simp [ho, vtkTransform.Concatenate_postMul,
              vtkTransform.PostMultiply, vtkTransform.PreMultiply]
  · unfold ApplyTransformation
    by_cases ho : o = 0 <;>
      cases p <;>
        simp [ho, vtkTransform.PostMultiply, vtkTransform.PreMultiply]
  · unfold ApplyTransformation
    by_cases ho : o = 0 <;>
      simp [ho, vtkTransform.Concatenate, vtkTransform.PostMultiply]
  · unfold ApplyTransformation
    by_cases ho : o = 0 <;>
      simp [ho, vtkTransform.Concatenate, vtkTransform.PreMultiply]

/-- C9: for all axis vectors, `getTransformFromAxes` builds the 3x3 matrix
with the axes as columns, orthogonalizes it with the library routine (so
the rotation block of the result is exactly orthonormal) and returns a
transform whose translation column is zero (with homogeneous bottom
row). -/
theorem getTransformFromAxes_spec (xaxis yaxis zaxis : Vec3) :
    (getTransformFromAxes xaxis yaxis zaxis).mat
      = embed3 (Orthogonalize3x3 (axesToColumns xaxis yaxis zaxis)) ∧
    IsOrtho3 (rot3 (getTransformFromAxes xaxis yaxis zaxis).mat) ∧
    (getTransformFromAxes xaxis yaxis zaxis).mat 0 3 = 0 ∧
    (getTransformFromAxes xaxis yaxis zaxis).mat 1 3 = 0 ∧
    (getTransformFromAxes xaxis yaxis zaxis).mat 2 3 = 0 ∧
    (getTransformFromAxes xaxis yaxis zaxis).mat 3 0 = 0 ∧
    (getTransformFromAxes xaxis yaxis zaxis).mat 3 1 = 0 ∧
    (getTransformFromAxes xaxis yaxis zaxis).mat 3 2 = 0 ∧
    (getTransformFromAxes xaxis yaxis zaxis).mat 3 3 = 1 := by
  refine ⟨rfl, ?_, ?_, ?_, ?_, ?_, ?_, ?_, ?_⟩
  · rw [show (getTransformFromAxes xaxis yaxis zaxis).mat
        = embed3 (Orthogonalize3x3 (axesToColumns xaxis yaxis zaxis)) from rfl,
      rot3_embed3]
    exact Orthogonalize3x3_isOrtho _
  all_goals
    simp [getTransformFromAxes, vtkTransform.SetMatrix, vtkTransform.new,
      embed3, Matrix.vecHead, Matrix.vecTail]

/-- C6: when `lookAtPosition` and `lookFromPosition` coincide within the
1e-8 tolerance, `getLookAtTransform` (with the default view-up (0,0,1))
falls back to the world X axis: the resulting matrix is the identity
rotation (an orthonormal frame whose X axis is (1,0,0)) placed at
`lookFromPosition`. -/
theorem getLookAtTransform_coincident (lookAtPosition lookFromPosition : Vec3)
    (h : (lookAtPosition.sub lookFromPosition).norm < 1e-8) :
    (getLookAtTransform lookAtPosition lookFromPosition ⟨0, 0, 1⟩).mat
      = !![1, 0, 0, lookFromPosition.x; 0, 1, 0, lookFromPosition.y;
           0, 0, 1, lookFromPosition.z; 0, 0, 0, 1] ∧
    IsOrtho3 (rot3
      (getLookAtTransform lookAtPosition lookFromPosition ⟨0, 0, 1⟩).mat) := by
  have step1 : getLookAtTransform lookAtPosition lookFromPosition ⟨0, 0, 1⟩
      = getTransformFromAxesAndOrigin ⟨1, 0, 0⟩ ⟨0, 1, 0⟩ ⟨0, 0, 1⟩
          lookFromPosition := by
    simp only [getLookAtTransform]
    rw [if_pos h]
    norm_num [Vec3.divs, Vec3.norm, Vec3.dot, Vec3.cross]
  have step2 : (getTransformFromAxesAndOrigin ⟨1, 0, 0⟩ ⟨0, 1, 0⟩ ⟨0, 0, 1⟩
      lookFromPosition).mat = translationMat lookFromPosition := by
    show (((getTransformFromAxes ⟨1, 0, 0⟩ ⟨0, 1, 0⟩ ⟨0, 0, 1⟩).PostMultiply).Concatenate
      (translationMat lookFromPosition)).mat = _
    rw [vtkTransform.Concatenate_mat]
    simp only [vtkTransform.PostMultiply, if_pos]
    rw [show ((getTransformFromAxes ⟨1, 0, 0⟩ ⟨0, 1, 0⟩ ⟨0, 0, 1⟩)).mat
        = embed3 (Orthogonalize3x3 (axesToColumns ⟨1, 0, 0⟩ ⟨0, 1, 0⟩ ⟨0, 0, 1⟩))
        from rfl,
      axesToColumns_id, Orthogonalize3x3_one, embed3_one, mul_one]
  constructor
  · rw [step1, step2]
    rfl
  · rw [step1, step2, rot3_translationMat]
    exact IsOrtho3_one

/-- Witness for C6 at coincident origin points. -/
theorem getLookAtTransform_coincident_witness :
    (getLookAtTransform ⟨0, 0, 0⟩ ⟨0, 0, 0⟩ ⟨0, 0, 1⟩).mat
      = !![1, 0, 0, (⟨0, 0, 0⟩ : Vec3).x; 0, 1, 0, (⟨0, 0, 0⟩ : Vec3).y;
           0, 0, 1, (⟨0, 0, 0⟩ : Vec3).z; 0, 0, 0, 1] ∧
    IsOrtho3 (rot3 (getLookAtTransform ⟨0, 0, 0⟩ ⟨0, 0, 0⟩ ⟨0, 0, 1⟩).mat) :=
  getLookAtTransform_coincident ⟨0, 0, 0⟩ ⟨0, 0, 0⟩
    (by norm_num [Vec3.sub, Vec3.norm, Vec3.dot])

lemma getAxes_new :
    getAxesFromTransform vtkTransform.new = (⟨1, 0, 0⟩, ⟨0, 1, 0⟩, ⟨0, 0, 1⟩) := by
  unfold getAxesFromTransform vtkTransform.TransformNormal
  norm_num [show ((vtkTransform.new).mat)⁻¹ = 1 from inv_one, Matrix.one_apply,
    Vec3.normalize, Vec3.divs, Vec3.norm, Vec3.dot, Fin.ext_iff]

/-- C5: `findTransformAxis` normalizes the reference vector, selects the
axis with the largest absolute dot product against it (ties to the lowest
index), and returns that index, that axis itself and the sign of the
non-absolute dot product; on the identity transform it returns index 0,
axis (1,0,0) and sign +1 for reference (1,0,0), sign -1 for (-1,0,0). -/
theorem findTransformAxis_spec (t : vtkTransform) (ref : Vec3)
    (h : ref ≠ ⟨0, 0, 0⟩) :
    (|(axisTriple t 0).dot (ref.divs ref.norm)|
        ≤ |(axisTriple t (findTransformAxis t ref).1).dot (ref.divs ref.norm)| ∧
     |(axisTriple t 1).dot (ref.divs ref.norm)|
        ≤ |(axisTriple t (findTransformAxis t ref).1).dot (ref.divs ref.norm)| ∧
     |(axisTriple t 2).dot (ref.divs ref.norm)|
        ≤ |(axisTriple t (findTransformAxis t ref).1).dot (ref.divs ref.norm)|) ∧
    ((0 < (findTransformAxis t ref).1 →
        |(axisTriple t 0).dot (ref.divs ref.norm)|
          < |(axisTriple t (findTransformAxis t ref).1).dot (ref.divs ref.norm)|) ∧
     (1 < (findTransformAxis t ref).1 →
        |(axisTriple t 1).dot (ref.divs ref.norm)|
          < |(axisTriple t (findTransformAxis t ref).1).dot (ref.divs ref.norm)|)) ∧
    (findTransformAxis t ref).2.1 = axisTriple t (findTransformAxis t ref).1 ∧
    (findTransformAxis t ref).2.2
      = npsign ((axisTriple t (findTransformAxis t ref).1).dot
          (ref.divs ref.norm)) ∧
    findTransformAxis vtkTransform.new ⟨1, 0, 0⟩ = (0, ⟨1, 0, 0⟩, 1) ∧
    findTransformAxis vtkTransform.new ⟨-1, 0, 0⟩ = (0, ⟨1, 0, 0⟩, -1) := by
  have hfst : (findTransformAxis t ref).1 = argmax3
      |(axisTriple t 0).dot (ref.divs ref.norm)|
      |(axisTriple t 1).dot (ref.divs ref.norm)|
      |(axisTriple t 2).dot (ref.divs ref.norm)| := rfl
  refine ⟨?_, ?_, rfl, rfl, ?_, ?_⟩
  · rw [hfst]
    unfold argmax3
    split_ifs with c1 c2
    · exact ⟨le_refl _, c1.1, c1.2⟩
    · rcases not_and_or.mp c1 with hh | hh
      · exact ⟨le_of_lt (not_le.mp hh), le_refl _, c2⟩
      · exact ⟨by linarith [not_le.mp hh], le_refl _, c2⟩
    · rcases not_and_or.mp c1 with hh | hh
      · exact ⟨by linarith [not_le.mp hh, not_le.mp c2],
          le_of_lt (not_le.mp c2), le_refl _⟩
      · exact ⟨by linarith [not_le.mp hh], le_of_lt (not_le.mp c2), le_refl _⟩
  · rw [hfst]
    unfold argmax3
    split_ifs with c1 c2
    · exact ⟨fun hh => absurd hh (by decide), fun hh => absurd hh (by decide)⟩
    · refine ⟨fun _ => ?_, fun hh => absurd hh (by decide)⟩
      rcases not_and_or.mp c1 with hh | hh
      · exact not_le.mp hh
      · linarith [not_le.mp hh]
    · refine ⟨fun _ => ?_, fun _ => not_le.mp c2⟩
      rcases not_and_or.mp c1 with hh | hh
      · linarith [not_le.mp hh, not_le.mp c2]
      · exact not_le.mp hh
  · norm_num [findTransformAxis, axisTriple, getAxes_new, Vec3.divs,
      Vec3.norm, Vec3.dot, argmax3, npsign, Matrix.vecHead, Matrix.vecTail]
  · norm_num [findTransformAxis, axisTriple, getAxes_new, Vec3.divs,
      Vec3.norm, Vec3.dot, argmax3, npsign, Matrix.vecHead, Matrix.vecTail]

/-- Witness for C5 on the identity transform with reference (1,0,0). -/
theorem findTransformAxis_spec_witness :
    (|(axisTriple vtkTransform.new 0).dot
        ((⟨1, 0, 0⟩ : Vec3).divs (⟨1, 0, 0⟩ : Vec3).norm)|
        ≤ |(axisTriple vtkTransform.new
            (findTransformAxis vtkTransform.new ⟨1, 0, 0⟩).1).dot
            ((⟨1, 0, 0⟩ : Vec3).divs (⟨1, 0, 0⟩ : Vec3).norm)| ∧
     |(axisTriple vtkTransform.new 1).dot
        ((⟨1, 0, 0⟩ : Vec3).divs (⟨1, 0, 0⟩ : Vec3).norm)|
        ≤ |(axisTriple vtkTransform.new
            (findTransformAxis vtkTransform.new ⟨1, 0, 0⟩).1).dot
            ((⟨1, 0, 0⟩ : Vec3).divs (⟨1, 0, 0⟩ : Vec3).norm)| ∧
     |(axisTriple vtkTransform.new 2).dot
        ((⟨1, 0, 0⟩ : Vec3).divs (⟨1, 0, 0⟩ : Vec3).norm)|
        ≤ |(axisTriple vtkTransform.new
            (findTransformAxis vtkTransform.new ⟨1, 0, 0⟩).1).dot
            ((⟨1, 0, 0⟩ : Vec3).divs (⟨1, 0, 0⟩ : Vec3).norm)|) ∧
    ((0 < (findTransformAxis vtkTransform.new ⟨1, 0, 0⟩).1 →
        |(axisTriple vtkTransform.new 0).dot
            ((⟨1, 0, 0⟩ : Vec3).divs (⟨1, 0, 0⟩ : Vec3).norm)|
          < |(axisTriple vtkTransform.new
              (findTransformAxis vtkTransform.new ⟨1, 0, 0⟩).1).dot
              ((⟨1, 0, 0⟩ : Vec3).divs (⟨1, 0, 0⟩ : Vec3).norm)|) ∧
     (1 < (findTransformAxis vtkTransform.new ⟨1, 0, 0⟩).1 →
        |(axisTriple vtkTransform.new 1).dot
            ((⟨1, 0, 0⟩ : Vec3).divs (⟨1, 0, 0⟩ : Vec3).norm)|
          < |(axisTriple vtkTransform.new
              (findTransformAxis vtkTransform.new ⟨1, 0, 0⟩).1).dot
              ((⟨1, 0, 0⟩ : Vec3).divs (⟨1, 0, 0⟩ : Vec3).norm)|)) ∧
    (findTransformAxis vtkTransform.new ⟨1, 0, 0⟩).2.1
      = axisTriple vtkTransform.new
          (findTransformAxis vtkTransform.new ⟨1, 0, 0⟩).1 ∧
    (findTransformAxis vtkTransform.new ⟨1, 0, 0⟩).2.2
      = npsign ((axisTriple vtkTransform.new
          (findTransformAxis vtkTransform.new ⟨1, 0, 0⟩).1).dot
          ((⟨1, 0, 0⟩ : Vec3).divs (⟨1, 0, 0⟩ : Vec3).norm)) ∧
    findTransformAxis vtkTransform.new ⟨1, 0, 0⟩ = (0, ⟨1, 0, 0⟩, 1) ∧
    findTransformAxis vtkTransform.new ⟨-1, 0, 0⟩ = (0, ⟨1, 0, 0⟩, -1) :=
  findTransformAxis_spec vtkTransform.new ⟨1, 0, 0⟩ (by simp)
